import Mathlib

/-
Verification of the Session & Bankroll Ledger core of the CScapstone casino
backend (Go + PostgreSQL).

The embedding models:
  - the persisted schema of backend/migrations 000002 (accounts),
    000003 (game_sessions) and 000004 (transactions), including the check
    constraints `bankroll_cents >= 0`, `bet_cents > 0`, `valid_result`,
    `valid_transaction_type`, `balance_math_check` and the partial unique
    index `idx_one_active_session_per_user`;
  - the handlers StartGame, GetActiveSession, AbandonSession
    (backend/internal/handlers/sessions.go) and GetSession, CompleteSession
    (backend/internal/handlers/internal.go), together with the static game
    table of backend/internal/handlers/games.go.

Each SQL statement issued by a handler is one primitive below; a primitive
returns `none` where PostgreSQL would raise an error (constraint violation,
scan of an empty result).  A handler returns `Except ApiError ...`; an
error result models the Go path that writes an HTTP error after the
deferred `tx.Rollback`, so on error the caller's database is unchanged.
Columns never read or written by these handlers (timestamps maintained by
triggers, the JSONB `state` column, presentation-only strings of the game
table and the websocket URL of the response) are omitted.
UUIDs are modelled as `Nat` drawn from a fresh-id counter.
Money is `Int`; where the Go handler itself computes an int64 sum that
can overflow (the `newBankroll` addition of CompleteSession), the
two's-complement wrap-around is modelled explicitly by `wrap64`.  The
bet subtraction of StartGame cannot overflow for any value the handler
lets through (a validated bet in a fixed small range against a stored
balance satisfying the BIGINT column's `>= 0` check), so it stays exact.
-/

namespace Casino

/-- One row of `accounts` (migration 000002): `user_id`, `bankroll_cents`. -/
structure Account where
  userId : Nat
  bankrollCents : Int
  deriving DecidableEq

/-- One row of `game_sessions` (migration 000003).  `status` and `result`
keep the VARCHAR representation of the schema. -/
structure GameSession where
  id : Nat
  userId : Nat
  gameType : String
  status : String
  betCents : Int
  result : Option String
  payoutCents : Int
  endedAt : Option Nat
  deriving DecidableEq

/-- One row of `transactions` (migration 000004), the append-only ledger. -/
structure LedgerRow where
  id : Nat
  userId : Nat
  gameSessionId : Option Nat
  transactionType : String
  amountCents : Int
  balanceBeforeCents : Int
  balanceAfterCents : Int
  description : String
  deriving DecidableEq

/-- The database state: the three tables plus fresh-id counters standing in
for `uuid_generate_v4()`. -/
structure DB where
  accounts : List Account
  sessions : List GameSession
  ledger : List LedgerRow
  nextSessionId : Nat
  nextLedgerId : Nat
  deriving DecidableEq

/-- Allowed `result` values: the `valid_result` check of migration 000003. -/
def validResult (r : String) : Bool :=
  r == "win" || r == "lose" || r == "push" || r == "blackjack" ||
    r == "fold" || r == "dealer_bust"

/-- Allowed `transaction_type` values: the `valid_transaction_type` check of
migration 000004. -/
def validTransactionType (t : String) : Bool :=
  t == "bet" || t == "win" || t == "refund" || t == "bonus" || t == "adjustment"

/-- Models `SELECT bankroll_cents FROM accounts WHERE user_id = $1`
(`none` when the scan finds no row). -/
def lookupBankroll (db : DB) (uid : Nat) : Option Int :=
  (db.accounts.find? (fun a => a.userId == uid)).map Account.bankrollCents

/-- Models `UPDATE accounts SET bankroll_cents = $1 WHERE user_id = $2`.
The statement errors iff it touches a row and the new value violates
`CHECK (bankroll_cents >= 0)`; with no matching row it succeeds affecting
nothing. -/
def updateBankroll (db : DB) (uid : Nat) (v : Int) : Option DB :=
  if db.accounts.any (fun a => a.userId == uid) && decide (v < 0) then
    none
  else
    some { db with
      accounts := db.accounts.map (fun a =>
        if a.userId == uid then { a with bankrollCents := v } else a) }

/-- Models `INSERT INTO game_sessions (user_id, game_type, bet_cents, status)
VALUES ($1,$2,$3,'active') RETURNING id`.  Errors on
`CHECK (bet_cents > 0)` or on the partial unique index
`idx_one_active_session_per_user` when the user already holds an active
session. -/
def insertSession (db : DB) (uid : Nat) (gameType : String) (bet : Int) :
    Option (Nat × DB) :=
  if decide (bet ≤ 0) then none
  else if db.sessions.any (fun s => s.userId == uid && s.status == "active") then
    none
  else
    some (db.nextSessionId,
      { db with
        sessions := db.sessions ++
          [{ id := db.nextSessionId, userId := uid, gameType := gameType,
             status := "active", betCents := bet, result := none,
             payoutCents := 0, endedAt := none }],
        nextSessionId := db.nextSessionId + 1 })

/-- Models `INSERT INTO transactions (user_id, game_session_id,
transaction_type, amount_cents, balance_before_cents, balance_after_cents,
description) VALUES (...)`.  Errors on `valid_transaction_type` or on
`balance_math_check`. -/
def insertLedger (db : DB) (uid : Nat) (sid : Option Nat) (ttype : String)
    (amount before after : Int) (desc : String) : Option DB :=
  if !validTransactionType ttype then none
  else if decide (after ≠ before + amount) then none
  else
    some { db with
      ledger := db.ledger ++
        [{ id := db.nextLedgerId, userId := uid, gameSessionId := sid,
           transactionType := ttype, amountCents := amount,
           balanceBeforeCents := before, balanceAfterCents := after,
           description := desc }],
      nextLedgerId := db.nextLedgerId + 1 }

/-- Models `UPDATE game_sessions SET status='completed', result=$1,
payout_cents=$2, ended_at=NOW() WHERE id = $3`.  Errors iff it touches a
row and the new `result` violates the `valid_result` check. -/
def updateSessionCompleted (db : DB) (sid : Nat) (result : String)
    (payout : Int) (now : Nat) : Option DB :=
  if db.sessions.any (fun s => s.id == sid) && !validResult result then
    none
  else
    some { db with
      sessions := db.sessions.map (fun s =>
        if s.id == sid then
          { s with status := "completed", result := some result,
                   payoutCents := payout, endedAt := some now }
        else s) }

/-- Two's-complement int64 wrap-around, as Go defines overflow of `int64`
addition: the result is reduced into
`[-9223372036854775808, 9223372036854775807]`
(`9223372036854775808 = 2^63`, `18446744073709551616 = 2^64`). -/
def wrap64 (x : Int) : Int :=
  (x + 9223372036854775808) % 18446744073709551616 - 9223372036854775808

/-- Models `DELETE FROM users WHERE id = $1` with the `ON DELETE CASCADE`
clauses of migrations 000002, 000003 and 000004: the account row, every
session and every ledger row owned by the user disappear. -/
def deleteUserCascade (db : DB) (uid : Nat) : DB :=
  { db with
    accounts := db.accounts.filter (fun a => !(a.userId == uid)),
    sessions := db.sessions.filter (fun s => !(s.userId == uid)),
    ledger := db.ledger.filter (fun t => !(t.userId == uid)) }

/-- A game of the static table in games.go (presentation-only string fields
omitted). -/
structure Game where
  id : String
  minBet : Int
  maxBet : Int
  enabled : Bool
  deriving DecidableEq

/-- The static `availableGames` list of games.go. -/
def availableGames : List Game :=
  [{ id := "blackjack", minBet := 100, maxBet := 10000, enabled := true },
   { id := "poker", minBet := 500, maxBet := 50000, enabled := true }]

/-- `GetGameByID` of games.go: linear search of the static table. -/
def GetGameByID (gameID : String) : Option Game :=
  availableGames.find? (fun g => g.id == gameID)

/-- The machine-readable error codes written by the handlers under scrutiny
(the `code` field of `writeError`). -/
inductive ApiError where
  | invalidGame
  | gameDisabled
  | betTooLow
  | betTooHigh
  | insufficientFunds
  | sessionExists
  | dbError
  | sessionNotFound
  | sessionInactive
  | sessionError
  | noSession
  deriving DecidableEq

/-- The success body of StartGame (sessions.go): session id, game type and
bet.  It has no balance field. -/
structure StartGameResponse where
  sessionId : Nat
  gameType : String
  betCents : Int
  deriving DecidableEq

/-- The commit phase of StartGame (sessions.go lines 113-153): deduct the
bet, insert the session row, record the bet ledger row.  Any SQL error is
written out as `DB_ERROR`. -/
def startGameCommit (db : DB) (uid : Nat) (gameType : String)
    (betCents bankroll : Int) : Except ApiError (StartGameResponse × DB) :=
  match updateBankroll db uid (bankroll - betCents) with
  | none => .error .dbError
  | some db1 =>
    match insertSession db1 uid gameType betCents with
    | none => .error .dbError
    | some (sessionId, db2) =>
      match insertLedger db2 uid (some sessionId) "bet" (-betCents) bankroll
          (bankroll - betCents) ("Bet placed on " ++ gameType) with
      | none => .error .dbError
      | some db3 =>
        .ok ({ sessionId := sessionId, gameType := gameType,
               betCents := betCents }, db3)

/-- StartGame (sessions.go): validate the game and the bet, then in one
transaction check funds, check for an active session
(`SELECT COUNT(*) ... status = 'active'`), and run the commit phase. -/
def startGame (db : DB) (uid : Nat) (gameType : String) (betCents : Int) :
    Except ApiError (StartGameResponse × DB) :=
  match GetGameByID gameType with
  | none => .error .invalidGame
  | some game =>
    if !game.enabled then .error .gameDisabled
    else if decide (betCents < game.minBet) then .error .betTooLow
    else if decide (betCents > game.maxBet) then .error .betTooHigh
    else
      match lookupBankroll db uid with
      | none => .error .dbError
      | some bankroll =>
        if decide (bankroll < betCents) then .error .insufficientFunds
        else if decide ((db.sessions.filter
            (fun s => s.userId == uid && s.status == "active")).length > 0) then
          .error .sessionExists
        else startGameCommit db uid gameType betCents bankroll

/-- The body GetActiveSession answers with (sessions.go): always HTTP 200,
either `has_active_session = false` or the active session's data. -/
structure ActiveSessionResponse where
  hasActiveSession : Bool
  session : Option StartGameResponse
  deriving DecidableEq

/-- GetActiveSession (sessions.go): a read-only query; a scan error (no
active session row) is answered with `has_active_session = false`, never
with an error status. -/
def getActiveSession (db : DB) (uid : Nat) : ActiveSessionResponse :=
  match db.sessions.find?
      (fun s => s.userId == uid && s.status == "active") with
  | none => { hasActiveSession := false, session := none }
  | some s =>
    { hasActiveSession := true,
      session := some { sessionId := s.id, gameType := s.gameType,
                        betCents := s.betCents } }

/-- AbandonSession (sessions.go): one
`UPDATE game_sessions SET status='abandoned', result='lose',
payout_cents=0, ended_at=NOW() WHERE user_id=$1 AND status='active'`;
`NO_SESSION` when it affected no row. -/
def abandonSession (db : DB) (uid : Nat) (now : Nat) : Except ApiError DB :=
  if decide ((db.sessions.filter
      (fun s => s.userId == uid && s.status == "active")).length = 0) then
    .error .noSession
  else
    .ok { db with
      sessions := db.sessions.map (fun s =>
        if s.userId == uid && s.status == "active" then
          { s with status := "abandoned", result := some "lose",
                   payoutCents := 0, endedAt := some now }
        else s) }

/-- The success body of the internal GetSession (internal.go). -/
structure SessionResponse where
  sessionId : Nat
  userId : Nat
  gameType : String
  betCents : Int
  status : String
  deriving DecidableEq

/-- GetSession (internal.go): read-only lookup by session id;
`SESSION_NOT_FOUND` when the row is absent, `SESSION_INACTIVE` when the
row's status is not `active`, otherwise the session snapshot. -/
def getSession (db : DB) (sid : Nat) : Except ApiError SessionResponse :=
  match db.sessions.find? (fun s => s.id == sid) with
  | none => .error .sessionNotFound
  | some s =>
    if !(s.status == "active") then .error .sessionInactive
    else
      .ok { sessionId := sid, userId := s.userId, gameType := s.gameType,
            betCents := s.betCents, status := s.status }

/-- The success body of the internal CompleteSession (internal.go). -/
structure CompleteSessionResponse where
  success : Bool
  newBankroll : Int
  accountDeleted : Bool
  deriving DecidableEq

/-- CompleteSession (internal.go): in one transaction, lock the active
session row (`SESSION_ERROR` when absent or not active), mark it completed
with the reported result and payout, credit the payout onto the bankroll,
record the `win` ledger row, and when the resulting bankroll is ≤ 0 delete
the user (cascading to the account, sessions and ledger) before
committing.  A delete failure would be ignored; the model's delete cannot
fail.  The Go statement `newBankroll := currentBankroll + req.PayoutCents`
adds two int64 values, which wraps on overflow, so the computed bankroll
is `wrap64 (currentBankroll + payoutCents)` everywhere `newBankroll` is
used: the accounts UPDATE, the ledger row, the `<= 0` teardown test and
the reply. -/
def completeSession (db : DB) (sid : Nat) (result : String)
    (payoutCents : Int) (now : Nat) :
    Except ApiError (CompleteSessionResponse × DB) :=
  match db.sessions.find?
      (fun s => s.id == sid && s.status == "active") with
  | none => .error .sessionError
  | some sess =>
    match updateSessionCompleted db sid result payoutCents now with
    | none => .error .dbError
    | some db1 =>
      match lookupBankroll db1 sess.userId with
      | none => .error .dbError
      | some currentBankroll =>
        match updateBankroll db1 sess.userId
            (wrap64 (currentBankroll + payoutCents)) with
        | none => .error .dbError
        | some db2 =>
          match insertLedger db2 sess.userId (some sid) "win" payoutCents
              currentBankroll (wrap64 (currentBankroll + payoutCents))
              ("Game completed: " ++ result) with
          | none => .error .dbError
          | some db3 =>
            if decide (wrap64 (currentBankroll + payoutCents) ≤ 0) then
              .ok ({ success := true,
                     newBankroll := wrap64 (currentBankroll + payoutCents),
                     accountDeleted := true },
                   deleteUserCascade db3 sess.userId)
            else
              .ok ({ success := true,
                     newBankroll := wrap64 (currentBankroll + payoutCents),
                     accountDeleted := false }, db3)

/-- One committed call against the ledger core. -/
inductive Op where
  | start (uid : Nat) (gameType : String) (betCents : Int)
  | complete (sid : Nat) (result : String) (payoutCents : Int) (now : Nat)
  | abandon (uid : Nat) (now : Nat)
  deriving DecidableEq

/-- The database state after one call: an error reply leaves the state as
the rolled-back transaction left it, unchanged. -/
def applyOp (db : DB) : Op → DB
  | .start uid g bet =>
    match startGame db uid g bet with
    | .ok (_, db') => db'
    | .error _ => db
  | .complete sid r p now =>
    match completeSession db sid r p now with
    | .ok (_, db') => db'
    | .error _ => db
  | .abandon uid now =>
    match abandonSession db uid now with
    | .ok db' => db'
    | .error _ => db

/-- The database state after a sequence of calls. -/
def runOps (db : DB) : List Op → DB
  | [] => db
  | op :: ops => runOps (applyOp db op) ops

/-- Invariant: every committed account balance is non-negative. -/
def BalancesNonneg (db : DB) : Prop :=
  ∀ a ∈ db.accounts, 0 ≤ a.bankrollCents

/-- Invariant: every ledger row satisfies
`balance_after_cents = balance_before_cents + amount_cents`. -/
def LedgerMathOk (db : DB) : Prop :=
  ∀ t ∈ db.ledger,
    t.balanceAfterCents = t.balanceBeforeCents + t.amountCents

/-- The number of active sessions a user holds. -/
def countActive (db : DB) (uid : Nat) : Nat :=
  (db.sessions.filter
    (fun s => s.userId == uid && s.status == "active")).length

/-- Invariant: at most one active session per account. -/
def AtMostOneActive (db : DB) : Prop :=
  ∀ uid, countActive db uid ≤ 1

/-- Invariant: the fresh-id counter dominates every stored session id. -/
def SessionIdsFresh (db : DB) : Prop :=
  ∀ s ∈ db.sessions, s.id < db.nextSessionId

/-- No account row for the user remains (the observable footprint of a
cascading deletion). -/
def AccountGone (db : DB) (uid : Nat) : Prop :=
  ∀ a ∈ db.accounts, a.userId ≠ uid

/-- No session row with this id is in status `active` (and the id counter
is already past it, so no later insert can reuse it). -/
def NotActiveId (db : DB) (sid : Nat) : Prop :=
  (∀ s ∈ db.sessions, s.id = sid → s.status ≠ "active") ∧
    sid < db.nextSessionId

/-- Scenario A database: one account at 250000 cents, no sessions. -/
def dbStart : DB :=
  { accounts := [{ userId := 0, bankrollCents := 250000 }],
    sessions := [], ledger := [], nextSessionId := 0, nextLedgerId := 0 }

/-- An account holding 5000 cents and no sessions. -/
def dbLow : DB :=
  { accounts := [{ userId := 0, bankrollCents := 5000 }],
    sessions := [], ledger := [], nextSessionId := 0, nextLedgerId := 0 }

/-- An account already at 0 cents with an active session (the state after
betting the whole bankroll). -/
def dbZero : DB :=
  { accounts := [{ userId := 0, bankrollCents := 0 }],
    sessions := [{ id := 3, userId := 0, gameType := "blackjack",
                   status := "active", betCents := 5000, result := none,
                   payoutCents := 0, endedAt := none }],
    ledger := [], nextSessionId := 4, nextLedgerId := 0 }

/-- An account holding 100 cents with an active session of bet 100. -/
def dbOver : DB :=
  { accounts := [{ userId := 0, bankrollCents := 100 }],
    sessions := [{ id := 0, userId := 0, gameType := "blackjack",
                   status := "active", betCents := 100, result := none,
                   payoutCents := 0, endedAt := none }],
    ledger := [], nextSessionId := 1, nextLedgerId := 0 }

/-- A database whose only session is already completed. -/
def dbDone : DB :=
  { accounts := [{ userId := 0, bankrollCents := 100 }],
    sessions := [{ id := 0, userId := 0, gameType := "blackjack",
                   status := "completed", betCents := 100,
                   result := some "lose", payoutCents := 0,
                   endedAt := some 2 }],
    ledger := [], nextSessionId := 1, nextLedgerId := 0 }

/-- A live account (user 1) with no sessions at all. -/
def dbLive : DB :=
  { accounts := [{ userId := 1, bankrollCents := 100 }],
    sessions := [], ledger := [], nextSessionId := 0, nextLedgerId := 0 }

/-- The state `dbStart` reaches after a successful
`startGame dbStart 0 "blackjack" 5000`. -/
def dbStartAfter : DB :=
  { accounts := [{ userId := 0, bankrollCents := 245000 }],
    sessions := [{ id := 0, userId := 0, gameType := "blackjack",
                   status := "active", betCents := 5000, result := none,
                   payoutCents := 0, endedAt := none }],
    ledger := [{ id := 0, userId := 0, gameSessionId := some 0,
                 transactionType := "bet", amountCents := -5000,
                 balanceBeforeCents := 250000, balanceAfterCents := 245000,
                 description := "Bet placed on blackjack" }],
    nextSessionId := 1, nextLedgerId := 1 }

/-- The state `dbOver` reaches after
`completeSession dbOver 0 "win" 50 5` (a settlement without teardown). -/
def dbOverWin : DB :=
  { accounts := [{ userId := 0, bankrollCents := 150 }],
    sessions := [{ id := 0, userId := 0, gameType := "blackjack",
                   status := "completed", betCents := 100,
                   result := some "win", payoutCents := 50,
                   endedAt := some 5 }],
    ledger := [{ id := 0, userId := 0, gameSessionId := some 0,
                 transactionType := "win", amountCents := 50,
                 balanceBeforeCents := 100, balanceAfterCents := 150,
                 description := "Game completed: win" }],
    nextSessionId := 1, nextLedgerId := 1 }

/-- The state `dbZero` reaches after the settlement
`completeSession dbZero 3 "lose" 0 9` tears the account down: every row of
the user is gone. -/
def dbEmpty : DB :=
  { accounts := [], sessions := [], ledger := [],
    nextSessionId := 4, nextLedgerId := 1 }

/-- Every game of the static table has a positive minimum bet. -/
theorem GetGameByID_minBet_pos {g : String} {game : Game}
    (h : GetGameByID g = some game) : 0 < game.minBet := by
  have hmem : game ∈ availableGames := List.mem_of_find?_eq_some h
  simp only [availableGames, List.mem_cons, List.not_mem_nil, or_false] at hmem
  rcases hmem with rfl | rfl <;> decide

/-- Unfolding of a successful bankroll update: only the matching account
row changes, and a matching row is never set below zero. -/
theorem updateBankroll_eq {db : DB} {uid : Nat} {v : Int} {db' : DB}
    (h : updateBankroll db uid v = some db') :
    db'.sessions = db.sessions ∧ db'.ledger = db.ledger ∧
      db'.nextSessionId = db.nextSessionId ∧
      db'.nextLedgerId = db.nextLedgerId ∧
      db'.accounts = db.accounts.map (fun a =>
        if a.userId == uid then { a with bankrollCents := v } else a) ∧
      (db.accounts.any (fun a => a.userId == uid) = true → 0 ≤ v) := by
  unfold updateBankroll at h
  split at h
  · exact absurd h (by simp)
  · next hguard =>
    cases h
    refine ⟨rfl, rfl, rfl, rfl, rfl, ?_⟩
    intro hany
    simp only [hany, Bool.true_and, decide_eq_true_eq] at hguard
    omega

/-- A successful bankroll update preserves non-negativity of all
balances. -/
theorem updateBankroll_nonneg {db : DB} {uid : Nat} {v : Int} {db' : DB}
    (hn : BalancesNonneg db) (h : updateBankroll db uid v = some db') :
    BalancesNonneg db' := by
  obtain ⟨-, -, -, -, hacc, hv⟩ := updateBankroll_eq h
  intro a ha
  rw [hacc] at ha
  simp only [List.mem_map] at ha
  obtain ⟨a₀, ha₀, rfl⟩ := ha
  by_cases hid : (a₀.userId == uid) = true
  · have : 0 ≤ v := hv (List.any_eq_true.mpr ⟨a₀, ha₀, hid⟩)
    simp [hid, this]
  · simp only [hid]
    simpa using hn a₀ ha₀

/-- Unfolding of a successful session insert: the new row is appended with
the fresh id, the bet is positive, and no active session for the user
pre-existed (the partial unique index). -/
theorem insertSession_eq {db : DB} {uid : Nat} {g : String} {bet : Int}
    {sid : Nat} {db' : DB}
    (h : insertSession db uid g bet = some (sid, db')) :
    sid = db.nextSessionId ∧ 0 < bet ∧
      db.sessions.any
        (fun s => s.userId == uid && s.status == "active") = false ∧
      db'.accounts = db.accounts ∧ db'.ledger = db.ledger ∧
      db'.nextLedgerId = db.nextLedgerId ∧
      db'.nextSessionId = db.nextSessionId + 1 ∧
      db'.sessions = db.sessions ++
        [{ id := db.nextSessionId, userId := uid, gameType := g,
           status := "active", betCents := bet, result := none,
           payoutCents := 0, endedAt := none }] := by
  unfold insertSession at h
  split at h
  · exact absurd h (by simp)
  · next hbet =>
    split at h
    · exact absurd h (by simp)
    · next hany =>
      cases h
      simp only [decide_eq_true_eq, not_le] at hbet
      exact ⟨rfl, by omega, by simpa using hany, rfl, rfl, rfl, rfl, rfl⟩

/-- Unfolding of a successful ledger insert: the row is appended and its
balance math holds. -/
theorem insertLedger_eq {db : DB} {uid : Nat} {sid : Option Nat}
    {t : String} {amount before after : Int} {desc : String} {db' : DB}
    (h : insertLedger db uid sid t amount before after desc = some db') :
    after = before + amount ∧
      db'.accounts = db.accounts ∧ db'.sessions = db.sessions ∧
      db'.nextSessionId = db.nextSessionId ∧
      db'.nextLedgerId = db.nextLedgerId + 1 ∧
      db'.ledger = db.ledger ++
        [{ id := db.nextLedgerId, userId := uid, gameSessionId := sid,
           transactionType := t, amountCents := amount,
           balanceBeforeCents := before, balanceAfterCents := after,
           description := desc }] := by
  unfold insertLedger at h
  split at h
  · exact absurd h (by simp)
  · split at h
    · exact absurd h (by simp)
    · next hmath =>
      cases h
      simp only [decide_eq_true_eq, Decidable.not_not] at hmath
      exact ⟨hmath, rfl, rfl, rfl, rfl, rfl⟩

/-- Unfolding of a successful session-completion update: the sessions are
mapped, everything else is untouched. -/
theorem updateSessionCompleted_eq {db : DB} {sid : Nat} {r : String}
    {p : Int} {now : Nat} {db' : DB}
    (h : updateSessionCompleted db sid r p now = some db') :
    db'.accounts = db.accounts ∧ db'.ledger = db.ledger ∧
      db'.nextSessionId = db.nextSessionId ∧
      db'.nextLedgerId = db.nextLedgerId ∧
      db'.sessions = db.sessions.map (fun s =>
        if s.id == sid then
          { s with status := "completed", result := some r,
                   payoutCents := p, endedAt := some now }
        else s) := by
  unfold updateSessionCompleted at h
  split at h
  · exact absurd h (by simp)
  · cases h
    exact ⟨rfl, rfl, rfl, rfl, rfl⟩

/-- A user has zero active sessions exactly when no session row of theirs
is active. -/
theorem countActive_eq_zero_iff {db : DB} {uid : Nat} :
    countActive db uid = 0 ↔
      db.sessions.any
        (fun s => s.userId == uid && s.status == "active") = false := by
  rw [countActive, List.length_eq_zero, List.filter_eq_nil_iff]
  simp [List.any_eq_true]

/-- A found bankroll means the account row is present. -/
theorem lookupBankroll_some_any {db : DB} {uid : Nat} {b : Int}
    (h : lookupBankroll db uid = some b) :
    db.accounts.any (fun a => a.userId == uid) = true := by
  unfold lookupBankroll at h
  cases hf : db.accounts.find? (fun a => a.userId == uid) with
  | none => rw [hf] at h; cases h
  | some a =>
    have hpa := List.find?_some hf
    exact List.any_eq_true.mpr ⟨a, List.mem_of_find?_eq_some hf, hpa⟩

/-- After a successful bankroll update, looking the account up again reads
the written value (provided the row existed before). -/
theorem lookupBankroll_after_update {db : DB} {uid : Nat} {v : Int}
    {db' : DB} {b : Int} (h : updateBankroll db uid v = some db')
    (hb : lookupBankroll db uid = some b) :
    lookupBankroll db' uid = some v := by
  obtain ⟨-, -, -, -, hacc, -⟩ := updateBankroll_eq h
  unfold lookupBankroll at hb ⊢
  rw [hacc]
  cases hf : db.accounts.find? (fun a => a.userId == uid) with
  | none => rw [hf] at hb; cases hb
  | some a =>
    have hfm : (db.accounts.map (fun a =>
        if a.userId == uid then { a with bankrollCents := v } else a)).find?
          (fun a => a.userId == uid) =
        some (if a.userId == uid then { a with bankrollCents := v } else a) := by
      rw [List.find?_map]
      have hcongr : ((fun a : Account => a.userId == uid) ∘ (fun a =>
          if a.userId == uid then { a with bankrollCents := v } else a)) =
          fun a : Account => a.userId == uid := by
        funext x
        by_cases hx : x.userId = uid <;> simp [hx]
      rw [hcongr, hf]
      rfl
    rw [hfm]
    have hpa := List.find?_some hf
    simp only [hpa, if_true, Option.map_some']

/-- Decomposition of a successful StartGame into its transaction phase:
the funds check and the active-session pre-check passed and the commit
phase produced the result. -/
theorem startGame_ok {db : DB} {uid : Nat} {g : String} {bet : Int}
    {resp : StartGameResponse} {db' : DB}
    (h : startGame db uid g bet = .ok (resp, db')) :
    ∃ game bankroll, GetGameByID g = some game ∧
      lookupBankroll db uid = some bankroll ∧
      bet ≤ bankroll ∧ countActive db uid = 0 ∧
      startGameCommit db uid g bet bankroll = .ok (resp, db') := by
  unfold startGame at h
  split at h
  · cases h
  · next game hgame =>
    split at h
    · cases h
    · split at h
      · cases h
      · split at h
        · cases h
        · split at h
          · cases h
          · next bankroll hbank =>
            split at h
            · cases h
            · next hfunds =>
              split at h
              · cases h
              · next hcount =>
                refine ⟨game, bankroll, hgame, hbank, ?_, ?_, h⟩
                · simp only [decide_eq_true_eq, not_lt] at hfunds
                  omega
                · simp only [decide_eq_true_eq, not_lt] at hcount
                  have : countActive db uid =
                      (db.sessions.filter (fun s =>
                        s.userId == uid && s.status == "active")).length := rfl
                  omega

/-- Decomposition of a successful commit phase of StartGame into the three
SQL statements it issues. -/
theorem startGameCommit_ok {db : DB} {uid : Nat} {g : String}
    {bet bankroll : Int} {resp : StartGameResponse} {db' : DB}
    (h : startGameCommit db uid g bet bankroll = .ok (resp, db')) :
    ∃ db1 db2,
      updateBankroll db uid (bankroll - bet) = some db1 ∧
      insertSession db1 uid g bet = some (resp.sessionId, db2) ∧
      insertLedger db2 uid (some resp.sessionId) "bet" (-bet) bankroll
        (bankroll - bet) ("Bet placed on " ++ g) = some db' ∧
      resp.gameType = g ∧ resp.betCents = bet := by
  unfold startGameCommit at h
  split at h
  · cases h
  · next db1 hdb1 =>
    split at h
    · cases h
    · next sid db2 hdb2 =>
      split at h
      · cases h
      · next db3 hdb3 =>
        cases h
        exact ⟨db1, db2, hdb1, hdb2, hdb3, rfl, rfl⟩

/-- Decomposition of a successful CompleteSession into the SQL statements
it issues, the response it writes and the optional cascade delete. -/
theorem completeSession_ok {db : DB} {sid : Nat} {r : String} {p : Int}
    {now : Nat} {resp : CompleteSessionResponse} {db' : DB}
    (h : completeSession db sid r p now = .ok (resp, db')) :
    ∃ sess bank db1 db2 db3,
      db.sessions.find?
        (fun s => s.id == sid && s.status == "active") = some sess ∧
      updateSessionCompleted db sid r p now = some db1 ∧
      lookupBankroll db1 sess.userId = some bank ∧
      updateBankroll db1 sess.userId (wrap64 (bank + p)) = some db2 ∧
      insertLedger db2 sess.userId (some sid) "win" p bank
        (wrap64 (bank + p)) ("Game completed: " ++ r) = some db3 ∧
      resp = { success := true, newBankroll := wrap64 (bank + p),
               accountDeleted := decide (wrap64 (bank + p) ≤ 0) } ∧
      db' = (if wrap64 (bank + p) ≤ 0 then deleteUserCascade db3 sess.userId
             else db3) := by
  unfold completeSession at h
  split at h
  · cases h
  · next sess hsess =>
    split at h
    · cases h
    · next db1 hdb1 =>
      split at h
      · cases h
      · next bank hbank =>
        split at h
        · cases h
        · next db2 hdb2 =>
          split at h
          · cases h
          · next db3 hdb3 =>
            split at h
            · next hle =>
              cases h
              simp only [decide_eq_true_eq] at hle
              exact ⟨sess, bank, db1, db2, db3, hsess, hdb1, hbank, hdb2,
                hdb3, by simp [hle], by simp [hle]⟩
            · next hgt =>
              cases h
              simp only [decide_eq_true_eq] at hgt
              exact ⟨sess, bank, db1, db2, db', hsess, hdb1, hbank, hdb2,
                hdb3, by simp [hgt], by simp [hgt]⟩

/-- Decomposition of a successful AbandonSession: some active session was
affected, and the only change is the status update of the user's active
sessions. -/
theorem abandonSession_ok {db : DB} {uid now : Nat} {db' : DB}
    (h : abandonSession db uid now = .ok db') :
    countActive db uid ≠ 0 ∧
      db'.accounts = db.accounts ∧ db'.ledger = db.ledger ∧
      db'.nextSessionId = db.nextSessionId ∧
      db'.nextLedgerId = db.nextLedgerId ∧
      db'.sessions = db.sessions.map (fun s =>
        if s.userId == uid && s.status == "active" then
          { s with status := "abandoned", result := some "lose",
                   payoutCents := 0, endedAt := some now }
        else s) := by
  unfold abandonSession at h
  split at h
  · cases h
  · next hcount =>
    cases h
    simp only [decide_eq_true_eq] at hcount
    have : countActive db uid =
        (db.sessions.filter (fun s =>
          s.userId == uid && s.status == "active")).length := rfl
    exact ⟨by omega, rfl, rfl, rfl, rfl, rfl⟩

/-- Mapping a function that never makes the predicate newly true cannot
increase the filtered length. -/
theorem length_filter_map_le {α : Type} (f : α → α) (p : α → Bool)
    (h : ∀ x, p (f x) = true → p x = true) (l : List α) :
    ((l.map f).filter p).length ≤ (l.filter p).length := by
  induction l with
  | nil => simp
  | cons x xs ih =>
    simp only [List.map_cons, List.filter_cons]
    by_cases hfx : p (f x) = true
    · rw [if_pos hfx, if_pos (h x hfx)]
      simpa using ih
    · rw [if_neg hfx]
      by_cases hx : p x = true
      · rw [if_pos hx]
        simp only [List.length_cons]
        omega
      · rw [if_neg hx]
        exact ih

/-- Every account row surviving one operation keeps a user id that an
account row already had. -/
theorem applyOp_accounts_userIds {db : DB} (op : Op) :
    ∀ a' ∈ (applyOp db op).accounts, ∃ a ∈ db.accounts, a'.userId = a.userId := by
  intro a' ha'
  cases op with
  | start uid g bet =>
    simp only [applyOp] at ha'
    split at ha'
    · next resp db' hok =>
      obtain ⟨game, bank, -, -, -, -, hcommit⟩ := startGame_ok hok
      obtain ⟨db1, db2, hdb1, hdb2, hdb3, -, -⟩ := startGameCommit_ok hcommit
      obtain ⟨-, -, -, -, hacc1, -⟩ := updateBankroll_eq hdb1
      obtain ⟨-, -, -, hacc2, -, -, -, -⟩ := insertSession_eq hdb2
      obtain ⟨-, hacc3, -, -, -, -⟩ := insertLedger_eq hdb3
      rw [hacc3, hacc2, hacc1] at ha'
      simp only [List.mem_map] at ha'
      obtain ⟨a, ha, rfl⟩ := ha'
      refine ⟨a, ha, ?_⟩
      by_cases hid : a.userId = uid <;> simp [hid]
    · exact ⟨a', ha', rfl⟩
  | complete sid r p now =>
    simp only [applyOp] at ha'
    split at ha'
    · next resp db' hok =>
      obtain ⟨sess, bank, db1, db2, db3, -, hdb1, -, hdb2, hdb3, -, hfin⟩ :=
        completeSession_ok hok
      obtain ⟨hacc1, -, -, -, -⟩ := updateSessionCompleted_eq hdb1
      obtain ⟨-, -, -, -, hacc2, -⟩ := updateBankroll_eq hdb2
      obtain ⟨-, hacc3, -, -, -, -⟩ := insertLedger_eq hdb3
      have hmem3 : ∀ x ∈ db3.accounts, ∃ a ∈ db.accounts, x.userId = a.userId := by
        intro x hx
        rw [hacc3, hacc2, hacc1] at hx
        simp only [List.mem_map] at hx
        obtain ⟨a, ha, rfl⟩ := hx
        refine ⟨a, ha, ?_⟩
        by_cases hid : a.userId = sess.userId <;> simp [hid]
      rw [hfin] at ha'
      split at ha'
      · simp only [deleteUserCascade] at ha'
        exact hmem3 a' (List.mem_of_mem_filter ha')
      · exact hmem3 a' ha'
    · exact ⟨a', ha', rfl⟩
  | abandon uid now =>
    simp only [applyOp] at ha'
    split at ha'
    · next db' hok =>
      obtain ⟨-, hacc, -, -, -, -⟩ := abandonSession_ok hok
      rw [hacc] at ha'
      exact ⟨a', ha', rfl⟩
    · exact ⟨a', ha', rfl⟩

/-- One committed operation preserves non-negativity of all balances. -/
theorem applyOp_balances {db : DB} (op : Op) (h : BalancesNonneg db) :
    BalancesNonneg (applyOp db op) := by
  cases op with
  | start uid g bet =>
    simp only [applyOp]
    split
    · next resp db' hok =>
      obtain ⟨game, bank, -, -, -, -, hcommit⟩ := startGame_ok hok
      obtain ⟨db1, db2, hdb1, hdb2, hdb3, -, -⟩ := startGameCommit_ok hcommit
      obtain ⟨-, -, -, hacc2, -, -, -, -⟩ := insertSession_eq hdb2
      obtain ⟨-, hacc3, -, -, -, -⟩ := insertLedger_eq hdb3
      have h1 : BalancesNonneg db1 := updateBankroll_nonneg h hdb1
      intro a ha
      rw [hacc3, hacc2] at ha
      exact h1 a ha
    · exact h
  | complete sid r p now =>
    simp only [applyOp]
    split
    · next resp db' hok =>
      obtain ⟨sess, bank, db1, db2, db3, -, hdb1, -, hdb2, hdb3, -, hfin⟩ :=
        completeSession_ok hok
      obtain ⟨hacc1, -, -, -, -⟩ := updateSessionCompleted_eq hdb1
      have h1 : BalancesNonneg db1 := by
        intro a ha; rw [hacc1] at ha; exact h a ha
      have h2 : BalancesNonneg db2 := updateBankroll_nonneg h1 hdb2
      obtain ⟨-, hacc3, -, -, -, -⟩ := insertLedger_eq hdb3
      have h3 : BalancesNonneg db3 := by
        intro a ha; rw [hacc3] at ha; exact h2 a ha
      rw [hfin]
      split
      · intro a ha
        simp only [deleteUserCascade] at ha
        exact h3 a (List.mem_of_mem_filter ha)
      · exact h3
    · exact h
  | abandon uid now =>
    simp only [applyOp]
    split
    · next db' hok =>
      obtain ⟨-, hacc, -, -, -, -⟩ := abandonSession_ok hok
      intro a ha; rw [hacc] at ha; exact h a ha
    · exact h

/-- A sequence of committed operations preserves non-negativity of all
balances. -/
theorem runOps_balances {db : DB} (ops : List Op) (h : BalancesNonneg db) :
    BalancesNonneg (runOps db ops) := by
  induction ops generalizing db with
  | nil => exact h
  | cons op ops ih => exact ih (applyOp_balances op h)

/-- One committed operation preserves the per-row balance math of the
ledger. -/
theorem applyOp_ledgerMath {db : DB} (op : Op) (h : LedgerMathOk db) :
    LedgerMathOk (applyOp db op) := by
  cases op with
  | start uid g bet =>
    simp only [applyOp]
    split
    · next resp db' hok =>
      obtain ⟨game, bank, -, -, -, -, hcommit⟩ := startGame_ok hok
      obtain ⟨db1, db2, hdb1, hdb2, hdb3, -, -⟩ := startGameCommit_ok hcommit
      obtain ⟨-, hled1, -, -, -, -⟩ := updateBankroll_eq hdb1
      obtain ⟨-, -, -, -, hled2, -, -, -⟩ := insertSession_eq hdb2
      obtain ⟨hmath, -, -, -, -, hled3⟩ := insertLedger_eq hdb3
      intro t ht
      rw [hled3, hled2, hled1] at ht
      rcases List.mem_append.mp ht with ht | ht
      · exact h t ht
      · simp only [List.mem_singleton] at ht
        subst ht
        simpa using hmath
    · exact h
  | complete sid r p now =>
    simp only [applyOp]
    split
    · next resp db' hok =>
      obtain ⟨sess, bank, db1, db2, db3, -, hdb1, -, hdb2, hdb3, -, hfin⟩ :=
        completeSession_ok hok
      obtain ⟨-, hled1, -, -, -⟩ := updateSessionCompleted_eq hdb1
      obtain ⟨-, hled2, -, -, -, -⟩ := updateBankroll_eq hdb2
      obtain ⟨hmath, -, -, -, -, hled3⟩ := insertLedger_eq hdb3
      have h3 : LedgerMathOk db3 := by
        intro t ht
        rw [hled3, hled2, hled1] at ht
        rcases List.mem_append.mp ht with ht | ht
        · exact h t ht
        · simp only [List.mem_singleton] at ht
          subst ht
          simp [hmath]
      rw [hfin]
      split
      · intro t ht
        simp only [deleteUserCascade] at ht
        exact h3 t (List.mem_of_mem_filter ht)
      · exact h3
    · exact h
  | abandon uid now =>
    simp only [applyOp]
    split
    · next db' hok =>
      obtain ⟨-, -, hled, -, -, -⟩ := abandonSession_ok hok
      intro t ht; rw [hled] at ht; exact h t ht
    · exact h

/-- A sequence of committed operations preserves the ledger math
invariant. -/
theorem runOps_ledgerMath {db : DB} (ops : List Op) (h : LedgerMathOk db) :
    LedgerMathOk (runOps db ops) := by
  induction ops generalizing db with
  | nil => exact h
  | cons op ops ih => exact ih (applyOp_ledgerMath op h)

/-- Absence of an account row survives every operation (no handler in this
core ever inserts into `accounts`). -/
theorem applyOp_accountGone {db : DB} {uid : Nat} (op : Op)
    (h : AccountGone db uid) : AccountGone (applyOp db op) uid := by
  intro a' ha'
  obtain ⟨a, ha, heq⟩ := applyOp_accounts_userIds op a' ha'
  rw [heq]
  exact h a ha

/-- A ledger row is never updated: after one operation it is still present
verbatim, unless its owner's account was cascade-deleted. -/
theorem applyOp_ledger_mem {db : DB} (op : Op) {t : LedgerRow}
    (ht : t ∈ db.ledger) :
    t ∈ (applyOp db op).ledger ∨ AccountGone (applyOp db op) t.userId := by
  cases op with
  | start uid g bet =>
    simp only [applyOp]
    split
    · next resp db' hok =>
      obtain ⟨game, bank, -, -, -, -, hcommit⟩ := startGame_ok hok
      obtain ⟨db1, db2, hdb1, hdb2, hdb3, -, -⟩ := startGameCommit_ok hcommit
      obtain ⟨-, hled1, -, -, -, -⟩ := updateBankroll_eq hdb1
      obtain ⟨-, -, -, -, hled2, -, -, -⟩ := insertSession_eq hdb2
      obtain ⟨-, -, -, -, -, hled3⟩ := insertLedger_eq hdb3
      left
      rw [hled3, hled2, hled1]
      exact List.mem_append_left _ ht
    · exact Or.inl ht
  | complete sid r p now =>
    simp only [applyOp]
    split
    · next resp db' hok =>
      obtain ⟨sess, bank, db1, db2, db3, -, hdb1, -, hdb2, hdb3, -, hfin⟩ :=
        completeSession_ok hok
      obtain ⟨-, hled1, -, -, -⟩ := updateSessionCompleted_eq hdb1
      obtain ⟨-, hled2, -, -, -, -⟩ := updateBankroll_eq hdb2
      obtain ⟨-, -, -, -, -, hled3⟩ := insertLedger_eq hdb3
      have ht3 : t ∈ db3.ledger := by
        rw [hled3, hled2, hled1]
        exact List.mem_append_left _ ht
      rw [hfin]
      split
      · by_cases huid : t.userId = sess.userId
        · right
          intro a ha
          simp only [deleteUserCascade, List.mem_filter] at ha
          obtain ⟨-, hne⟩ := ha
          simp only [Bool.not_eq_true', beq_eq_false_iff_ne, ne_eq] at hne
          rw [huid]
          exact hne
        · left
          simp only [deleteUserCascade, List.mem_filter]
          refine ⟨ht3, ?_⟩
          simp only [Bool.not_eq_true', beq_eq_false_iff_ne, ne_eq]
          exact huid
      · exact Or.inl ht3
    · exact Or.inl ht
  | abandon uid now =>
    simp only [applyOp]
    split
    · next db' hok =>
      obtain ⟨-, -, hled, -, -, -⟩ := abandonSession_ok hok
      left; rw [hled]; exact ht
    · exact Or.inl ht

/-- A ledger row survives any sequence of operations verbatim, unless its
owner's account was cascade-deleted along the way (and then the account is
still gone at the end). -/
theorem runOps_ledger_mem {db : DB} (ops : List Op) {t : LedgerRow}
    (ht : t ∈ db.ledger) :
    t ∈ (runOps db ops).ledger ∨ AccountGone (runOps db ops) t.userId := by
  induction ops generalizing db with
  | nil => exact Or.inl ht
  | cons op ops ih =>
    rcases applyOp_ledger_mem op ht with h1 | h1
    · exact ih h1
    · right
      have : ∀ ops' db₀, AccountGone db₀ t.userId →
          AccountGone (runOps db₀ ops') t.userId := by
        intro ops'
        induction ops' with
        | nil => intro db₀ hg; exact hg
        | cons op' ops' ih' =>
          intro db₀ hg
          exact ih' (applyOp db₀ op') (applyOp_accountGone op' hg)
      exact this ops (applyOp db op) h1

/-- One committed operation preserves the at-most-one-active-session
invariant. -/
theorem applyOp_atMostOne {db : DB} (op : Op) (h : AtMostOneActive db) :
    AtMostOneActive (applyOp db op) := by
  cases op with
  | start uid g bet =>
    simp only [applyOp]
    split
    · next resp db' hok =>
      obtain ⟨game, bank, -, -, -, hcount0, hcommit⟩ := startGame_ok hok
      obtain ⟨db1, db2, hdb1, hdb2, hdb3, -, -⟩ := startGameCommit_ok hcommit
      obtain ⟨hsess1, -, -, -, -, -⟩ := updateBankroll_eq hdb1
      obtain ⟨-, -, -, -, -, -, -, hsess2⟩ := insertSession_eq hdb2
      obtain ⟨-, -, hsess3, -, -, -⟩ := insertLedger_eq hdb3
      intro uid'
      unfold countActive
      rw [hsess3, hsess2, hsess1, List.filter_append, List.length_append]
      by_cases huid : uid' = uid
      · subst huid
        have h0 : (db.sessions.filter
            (fun s => s.userId == uid' && s.status == "active")).length = 0 :=
          hcount0
        rw [h0]
        simp [List.filter_cons]
      · have hne : (uid == uid') = false := by
          simp only [beq_eq_false_iff_ne, ne_eq]
          exact fun hc => huid hc.symm
        have h1 : (db.sessions.filter
            (fun s => s.userId == uid' && s.status == "active")).length ≤ 1 :=
          h uid'
        simp [List.filter_cons, hne]
        omega
    · exact h
  | complete sid r p now =>
    simp only [applyOp]
    split
    · next resp db' hok =>
      obtain ⟨sess, bank, db1, db2, db3, -, hdb1, -, hdb2, hdb3, -, hfin⟩ :=
        completeSession_ok hok
      obtain ⟨-, -, -, -, hsess1⟩ := updateSessionCompleted_eq hdb1
      obtain ⟨hsess2, -, -, -, -, -⟩ := updateBankroll_eq hdb2
      obtain ⟨-, -, hsess3, -, -, -⟩ := insertLedger_eq hdb3
      have hmp : ∀ uid', countActive db3 uid' ≤ countActive db uid' := by
        intro uid'
        unfold countActive
        rw [hsess3, hsess2, hsess1]
        refine length_filter_map_le _ _ ?_ db.sessions
        intro x hx
        by_cases hid : (x.id == sid) = true
        · rw [if_pos hid] at hx
          simp at hx
        · rw [if_neg hid] at hx
          exact hx
      intro uid'
      rw [hfin]
      split
      · have hsub : countActive (deleteUserCascade db3 sess.userId) uid' ≤
            countActive db3 uid' := by
          unfold countActive
          simp only [deleteUserCascade]
          exact (((List.filter_sublist _).filter _)).length_le
        exact le_trans hsub (le_trans (hmp uid') (h uid'))
      · exact le_trans (hmp uid') (h uid')
    · exact h
  | abandon uid now =>
    simp only [applyOp]
    split
    · next db' hok =>
      obtain ⟨-, -, -, -, -, hsess⟩ := abandonSession_ok hok
      intro uid'
      have hle : countActive db' uid' ≤ countActive db uid' := by
        unfold countActive
        rw [hsess]
        refine length_filter_map_le _ _ ?_ db.sessions
        intro x hx
        by_cases hcond : (x.userId == uid && x.status == "active") = true
        · rw [if_pos hcond] at hx
          simp at hx
        · rw [if_neg hcond] at hx
          exact hx
      exact le_trans hle (h uid')
    · exact h

/-- A sequence of committed operations preserves the
at-most-one-active-session invariant. -/
theorem runOps_atMostOne {db : DB} (ops : List Op) (h : AtMostOneActive db) :
    AtMostOneActive (runOps db ops) := by
  induction ops generalizing db with
  | nil => exact h
  | cons op ops ih => exact ih (applyOp_atMostOne op h)

/-- Once no session row with a given id is active and the id counter has
moved past it, one further operation cannot re-activate it. -/
theorem applyOp_notActiveId {db : DB} {sid : Nat} (op : Op)
    (h : NotActiveId db sid) : NotActiveId (applyOp db op) sid := by
  obtain ⟨hstat, hlt⟩ := h
  cases op with
  | start uid g bet =>
    simp only [applyOp]
    split
    · next resp db' hok =>
      obtain ⟨game, bank, -, -, -, -, hcommit⟩ := startGame_ok hok
      obtain ⟨db1, db2, hdb1, hdb2, hdb3, -, -⟩ := startGameCommit_ok hcommit
      obtain ⟨hsess1, -, hnext1, -, -, -⟩ := updateBankroll_eq hdb1
      obtain ⟨-, -, -, -, -, -, hnext2, hsess2⟩ := insertSession_eq hdb2
      obtain ⟨-, -, hsess3, hnext3, -, -⟩ := insertLedger_eq hdb3
      constructor
      · intro s hs
        rw [hsess3, hsess2, hsess1] at hs
        rcases List.mem_append.mp hs with hs | hs
        · exact hstat s hs
        · simp only [List.mem_singleton] at hs
          subst hs
          intro hid
          have hid' : db1.nextSessionId = sid := hid
          rw [hnext1] at hid'
          exfalso
          omega
      · rw [hnext3, hnext2, hnext1]
        omega
    · exact ⟨hstat, hlt⟩
  | complete sid₀ r p now =>
    simp only [applyOp]
    split
    · next resp db' hok =>
      obtain ⟨sess, bank, db1, db2, db3, -, hdb1, -, hdb2, hdb3, -, hfin⟩ :=
        completeSession_ok hok
      obtain ⟨-, -, hnext1, -, hsess1⟩ := updateSessionCompleted_eq hdb1
      obtain ⟨hsess2, -, hnext2, -, -, -⟩ := updateBankroll_eq hdb2
      obtain ⟨-, -, hsess3, hnext3, -, -⟩ := insertLedger_eq hdb3
      have hstat3 : ∀ s ∈ db3.sessions, s.id = sid → s.status ≠ "active" := by
        intro s hs
        rw [hsess3, hsess2, hsess1] at hs
        simp only [List.mem_map] at hs
        obtain ⟨s₀, hs₀, rfl⟩ := hs
        by_cases hid : (s₀.id == sid₀) = true
        · rw [if_pos hid]
          intro _
          simp
        · rw [if_neg hid]
          exact hstat s₀ hs₀
      have hnext : db3.nextSessionId = db.nextSessionId := by
        rw [hnext3, hnext2, hnext1]
      rw [hfin]
      split
      · constructor
        · intro s hs
          simp only [deleteUserCascade] at hs
          exact hstat3 s (List.mem_of_mem_filter hs)
        · simpa [deleteUserCascade, hnext] using hlt
      · exact ⟨hstat3, by rw [hnext]; exact hlt⟩
    · exact ⟨hstat, hlt⟩
  | abandon uid now =>
    simp only [applyOp]
    split
    · next db' hok =>
      obtain ⟨-, -, -, hnext, -, hsess⟩ := abandonSession_ok hok
      constructor
      · intro s hs
        rw [hsess] at hs
        simp only [List.mem_map] at hs
        obtain ⟨s₀, hs₀, rfl⟩ := hs
        by_cases hcond : (s₀.userId == uid && s₀.status == "active") = true
        · rw [if_pos hcond]
          intro _
          simp
        · rw [if_neg hcond]
          exact hstat s₀ hs₀
      · rw [hnext]
        exact hlt
    · exact ⟨hstat, hlt⟩

/-- The settled-session predicate survives whole sequences of
operations. -/
theorem runOps_notActiveId {db : DB} {sid : Nat} (ops : List Op)
    (h : NotActiveId db sid) : NotActiveId (runOps db ops) sid := by
  induction ops generalizing db with
  | nil => exact h
  | cons op ops ih => exact ih (applyOp_notActiveId op h)

/-- With no active row under this id, the settlement lookup finds
nothing. -/
theorem notActiveId_find_none {db : DB} {sid : Nat} (h : NotActiveId db sid) :
    db.sessions.find? (fun s => s.id == sid && s.status == "active") =
      none := by
  rw [List.find?_eq_none]
  intro s hs
  simp only [Bool.and_eq_true, beq_iff_eq, not_and]
  intro hid
  have := h.1 s hs hid
  simpa using this

/-- CompleteSession on a settled (or unknown) session id fails with the
`SESSION_ERROR` reply of internal.go and, the transaction being rolled
back, changes nothing. -/
theorem completeSession_notActiveId {db : DB} {sid : Nat} {r : String}
    {p : Int} {now : Nat} (h : NotActiveId db sid) :
    completeSession db sid r p now = .error .sessionError ∧
      applyOp db (.complete sid r p now) = db := by
  have hfind := notActiveId_find_none h
  constructor
  · unfold completeSession
    rw [hfind]
  · simp only [applyOp]
    split
    · next resp db' hok =>
      unfold completeSession at hok
      rw [hfind] at hok
      cases hok
    · rfl

/-- After a successful settlement the session id can never be active
again (the id counter of the model never reuses ids). -/
theorem completeSession_ok_notActiveId {db : DB} {sid : Nat} {r : String}
    {p : Int} {now : Nat} {resp : CompleteSessionResponse} {db' : DB}
    (hfresh : SessionIdsFresh db)
    (h : completeSession db sid r p now = .ok (resp, db')) :
    NotActiveId db' sid := by
  obtain ⟨sess, bank, db1, db2, db3, hsess, hdb1, -, hdb2, hdb3, -, hfin⟩ :=
    completeSession_ok h
  obtain ⟨-, -, hnext1, -, hsess1⟩ := updateSessionCompleted_eq hdb1
  obtain ⟨hsess2, -, hnext2, -, -, -⟩ := updateBankroll_eq hdb2
  obtain ⟨-, -, hsess3, hnext3, -, -⟩ := insertLedger_eq hdb3
  have hstat3 : ∀ s ∈ db3.sessions, s.id = sid → s.status ≠ "active" := by
    intro s hs
    rw [hsess3, hsess2, hsess1] at hs
    simp only [List.mem_map] at hs
    obtain ⟨s₀, hs₀, rfl⟩ := hs
    by_cases hid : (s₀.id == sid) = true
    · rw [if_pos hid]
      intro _
      simp
    · rw [if_neg hid]
      intro hc
      exact absurd (beq_iff_eq.mpr hc) (by simp [hid])
  have hsid : sid < db.nextSessionId := by
    have hmem := List.mem_of_find?_eq_some hsess
    have hp := List.find?_some hsess
    simp only [Bool.and_eq_true, beq_iff_eq] at hp
    have := hfresh sess hmem
    omega
  have hnext : db3.nextSessionId = db.nextSessionId := by
    rw [hnext3, hnext2, hnext1]
  rw [hfin]
  split
  · constructor
    · intro s hs
      simp only [deleteUserCascade] at hs
      exact hstat3 s (List.mem_of_mem_filter hs)
    · simpa [deleteUserCascade, hnext] using hsid
  · exact ⟨hstat3, by rw [hnext]; exact hsid⟩

/-- The wrapped int64 sum is never below the int64 minimum. -/
theorem wrap64_lb (x : Int) : -9223372036854775808 ≤ wrap64 x := by
  unfold wrap64
  have h := Int.emod_nonneg (x + 9223372036854775808)
    (by norm_num : (18446744073709551616 : Int) ≠ 0)
  omega

/-- The wrapped int64 sum never exceeds the int64 maximum. -/
theorem wrap64_ub (x : Int) : wrap64 x < 9223372036854775808 := by
  unfold wrap64
  have h := Int.emod_lt_of_pos (x + 9223372036854775808)
    (by norm_num : (0 : Int) < 18446744073709551616)
  omega

/-- A sum that fits in int64 is not changed by the wrap. -/
theorem wrap64_eq_self {x : Int} (h1 : -9223372036854775808 ≤ x)
    (h2 : x < 9223372036854775808) : wrap64 x = x := by
  unfold wrap64
  rw [Int.emod_eq_of_lt (by omega) (by omega)]
  omega

/-- A settlement whose credited int64 bankroll cannot be stored — the
exact sum is negative, or it overflows int64 so the wrapped value differs
from it — dies on a database check (the `bankroll_cents >= 0` check of
the accounts UPDATE, or the `balance_math_check` of the ledger insert)
and is reported as the generic `DB_ERROR`. -/
theorem completeSession_out_of_range {db : DB} {sid : Nat} {r : String}
    {p : Int} {now : Nat} {sess : GameSession} {b : Int}
    (hs : db.sessions.find?
      (fun s => s.id == sid && s.status == "active") = some sess)
    (hb : lookupBankroll db sess.userId = some b)
    (hbad : b + p < 0 ∨ 9223372036854775808 ≤ b + p) :
    completeSession db sid r p now = .error .dbError := by
  unfold completeSession
  simp only [hs]
  cases hupd : updateSessionCompleted db sid r p now with
  | none => rfl
  | some db1 =>
    obtain ⟨hacc, -, -, -, -⟩ := updateSessionCompleted_eq hupd
    have hb1 : lookupBankroll db1 sess.userId = some b := by
      unfold lookupBankroll at hb ⊢
      rw [hacc]
      exact hb
    simp only [hb1]
    cases hupd2 : updateBankroll db1 sess.userId (wrap64 (b + p)) with
    | none => rfl
    | some db2 =>
      obtain ⟨-, -, -, -, -, hge⟩ := updateBankroll_eq hupd2
      have h0 : (0 : Int) ≤ wrap64 (b + p) :=
        hge (lookupBankroll_some_any hb1)
      have hub := wrap64_ub (b + p)
      have hne : decide (wrap64 (b + p) ≠ b + p) = true :=
        decide_eq_true (by rcases hbad with hbad | hbad <;> omega)
      have hledg : insertLedger db2 sess.userId (some sid) "win" p b
          (wrap64 (b + p)) ("Game completed: " ++ r) = none := by
        unfold insertLedger
        rw [hne]
        simp
      simp only [hledg]

/-- A settlement whose exact credited balance would be negative always
fails as `DB_ERROR`: without int64 overflow the wrapped value is the
negative sum itself and the accounts UPDATE dies on `bankroll_cents >= 0`;
with overflow the wrapped value differs from the exact sum and the ledger
insert dies on `balance_math_check`. -/
theorem completeSession_overshoot {db : DB} {sid : Nat} {r : String}
    {p : Int} {now : Nat} {sess : GameSession} {b : Int}
    (hs : db.sessions.find?
      (fun s => s.id == sid && s.status == "active") = some sess)
    (hb : lookupBankroll db sess.userId = some b) (hneg : b + p < 0) :
    completeSession db sid r p now = .error .dbError :=
  completeSession_out_of_range hs hb (Or.inl hneg)

/-- With a valid enabled game, a bet within the table limits and a
bankroll short of the bet, StartGame reports `INSUFFICIENT_FUNDS`. -/
theorem startGame_lowFunds {db : DB} {uid : Nat} {g : String} {bet : Int}
    {game : Game} {b : Int}
    (hg : GetGameByID g = some game) (he : game.enabled = true)
    (hmin : game.minBet ≤ bet) (hmax : bet ≤ game.maxBet)
    (hb : lookupBankroll db uid = some b) (hlt : b < bet) :
    startGame db uid g bet = .error .insufficientFunds := by
  unfold startGame
  have e0 : (!game.enabled) = false := by rw [he]; rfl
  have e1 : decide (bet < game.minBet) = false :=
    decide_eq_false (not_lt.mpr hmin)
  have e2 : decide (bet > game.maxBet) = false :=
    decide_eq_false (not_lt.mpr hmax)
  have e3 : decide (b < bet) = true := decide_eq_true hlt
  simp only [hg, e0, e1, e2, hb, e3, Bool.false_eq_true, if_false, if_true]

/-- Claim C1: over every sequence of committed ledger operations no
account balance ever drops below zero; in particular a settlement whose
credit would leave the balance negative fails (on the database
non-negativity check) leaving the state unchanged, and a bet larger than
the bankroll fails with `INSUFFICIENT_FUNDS` leaving the state
unchanged. -/
theorem claimC1_balance_never_negative
    (db : DB) (ops : List Op) (h : BalancesNonneg db)
    (db₂ : DB) (sid : Nat) (r : String) (p : Int) (now : Nat)
    (sess : GameSession) (b : Int)
    (hs : db₂.sessions.find?
      (fun s => s.id == sid && s.status == "active") = some sess)
    (hb : lookupBankroll db₂ sess.userId = some b) (hneg : b + p < 0)
    (db₃ : DB) (uid₃ : Nat) (g : String) (bet : Int) (game : Game) (b₃ : Int)
    (hg : GetGameByID g = some game) (he : game.enabled = true)
    (hmin : game.minBet ≤ bet) (hmax : bet ≤ game.maxBet)
    (hb₃ : lookupBankroll db₃ uid₃ = some b₃) (hlt : b₃ < bet) :
    BalancesNonneg (runOps db ops) ∧
      (completeSession db₂ sid r p now = .error .dbError ∧
        applyOp db₂ (.complete sid r p now) = db₂) ∧
      (startGame db₃ uid₃ g bet = .error .insufficientFunds ∧
        applyOp db₃ (.start uid₃ g bet) = db₃) := by
  have h2 := @completeSession_overshoot db₂ sid r p now sess b hs hb hneg
  have h3 := startGame_lowFunds hg he hmin hmax hb₃ hlt
  refine ⟨runOps_balances ops h, ⟨h2, ?_⟩, ⟨h3, ?_⟩⟩
  · simp only [applyOp, h2]
  · simp only [applyOp, h3]

/-- Witness for the C1 theorem at concrete inputs. -/
theorem claimC1_witness :
    BalancesNonneg dbStart ∧
      (BalancesNonneg (runOps dbStart [Op.start 0 "blackjack" 5000]) ∧
        (completeSession dbOver 0 "lose" (-200) 5 = .error .dbError ∧
          applyOp dbOver (.complete 0 "lose" (-200) 5) = dbOver) ∧
        (startGame dbLow 0 "blackjack" 6000 = .error .insufficientFunds ∧
          applyOp dbLow (.start 0 "blackjack" 6000) = dbLow)) :=
  ⟨by unfold BalancesNonneg; decide,
    claimC1_balance_never_negative dbStart [Op.start 0 "blackjack" 5000]
      (by unfold BalancesNonneg; decide)
      dbOver 0 "lose" (-200) 5
      { id := 0, userId := 0, gameType := "blackjack", status := "active",
        betCents := 100, result := none, payoutCents := 0, endedAt := none }
      100 (by decide) (by decide) (by decide)
      dbLow 0 "blackjack" 6000
      { id := "blackjack", minBet := 100, maxBet := 10000, enabled := true }
      5000 (by decide) (by decide) (by decide) (by decide) (by decide)
      (by decide)⟩

/-- Claim C3: with a valid, enabled game and a bet within the table
limits, an account whose bankroll is strictly below the bet gets
`INSUFFICIENT_FUNDS` and the rolled-back transaction mutates nothing. -/
theorem claimC3_insufficient_funds_frame
    (db : DB) (uid : Nat) (g : String) (bet : Int) (game : Game) (b : Int)
    (hg : GetGameByID g = some game) (he : game.enabled = true)
    (hmin : game.minBet ≤ bet) (hmax : bet ≤ game.maxBet)
    (hb : lookupBankroll db uid = some b) (hlt : b < bet) :
    startGame db uid g bet = .error .insufficientFunds ∧
      applyOp db (.start uid g bet) = db := by
  have h3 := startGame_lowFunds hg he hmin hmax hb hlt
  exact ⟨h3, by simp only [applyOp, h3]⟩

/-- Witness for the C3 theorem at concrete inputs. -/
theorem claimC3_witness :
    lookupBankroll dbLow 0 = some 5000 ∧
      (startGame dbLow 0 "blackjack" 6000 = .error .insufficientFunds ∧
        applyOp dbLow (.start 0 "blackjack" 6000) = dbLow) :=
  ⟨by decide,
    claimC3_insufficient_funds_frame dbLow 0 "blackjack" 6000
      { id := "blackjack", minBet := 100, maxBet := 10000, enabled := true }
      5000 (by decide) (by decide) (by decide) (by decide) (by decide)
      (by decide)⟩

/-- Claim C4: every ledger row ever present satisfies the balance math
`balance_after = balance_before + amount`, and ledger rows are never
updated or deleted by any operation except transitively when their
owning account is cascade-deleted. -/
theorem claimC4_ledger_math_append_only (db : DB) (ops : List Op)
    (h : LedgerMathOk db) :
    LedgerMathOk (runOps db ops) ∧
      ∀ t ∈ db.ledger, t ∈ (runOps db ops).ledger ∨
        AccountGone (runOps db ops) t.userId :=
  ⟨runOps_ledgerMath ops h, fun _ ht => runOps_ledger_mem ops ht⟩

/-- Witness for the C4 theorem at concrete inputs. -/
theorem claimC4_witness :
    LedgerMathOk dbStartAfter ∧
      (LedgerMathOk (runOps dbStartAfter [Op.complete 0 "lose" 0 7]) ∧
        ∀ t ∈ dbStartAfter.ledger,
          t ∈ (runOps dbStartAfter [Op.complete 0 "lose" 0 7]).ledger ∨
            AccountGone (runOps dbStartAfter [Op.complete 0 "lose" 0 7])
              t.userId) :=
  ⟨by unfold LedgerMathOk; decide,
    claimC4_ledger_math_append_only dbStartAfter [Op.complete 0 "lose" 0 7]
      (by unfold LedgerMathOk; decide)⟩

/-- Claim C5 (amended): at most one active session per account holds over
every sequence of operations; but a StartGame commit phase that runs
against a state in which the user already holds an active session — the
state the loser of a race sees after the winner committed — dies on the
partial unique index and is surfaced as the internal `DB_ERROR`, not as
`SESSION_EXISTS`. -/
theorem claimC5_single_active (db : DB) (ops : List Op)
    (h : AtMostOneActive db) (db₂ : DB) (uid : Nat) (g : String)
    (bet bank : Int)
    (hactive : db₂.sessions.any
      (fun s => s.userId == uid && s.status == "active") = true) :
    AtMostOneActive (runOps db ops) ∧
      startGameCommit db₂ uid g bet bank = .error .dbError := by
  refine ⟨runOps_atMostOne ops h, ?_⟩
  unfold startGameCommit
  cases hub : updateBankroll db₂ uid (bank - bet) with
  | none => rfl
  | some db1 =>
    obtain ⟨hsess1, -, -, -, -, -⟩ := updateBankroll_eq hub
    have hins : insertSession db1 uid g bet = none := by
      unfold insertSession
      rw [hsess1, hactive]
      simp
    simp only [hins]

/-- Witness for the C5 theorem at concrete inputs. -/
theorem claimC5_witness :
    AtMostOneActive dbStart ∧
      (AtMostOneActive (runOps dbStart [Op.start 0 "blackjack" 5000]) ∧
        startGameCommit dbOver 0 "blackjack" 5000 250000 =
          .error .dbError) :=
  ⟨fun uid => by simp [countActive, dbStart],
    claimC5_single_active dbStart [Op.start 0 "blackjack" 5000]
      (fun uid => by simp [countActive, dbStart])
      dbOver 0 "blackjack" 5000 250000 (by decide)⟩

/-- Counterexample for claim C5 as stated: against a committed state that
already holds an active session for the user (the loser's view after the
race winner committed), the commit phase of StartGame hits the structural
uniqueness constraint and answers the internal `DB_ERROR`, not
`SESSION_EXISTS` — sessions.go maps every insert failure to HTTP 500
`DB_ERROR`. -/
theorem claimC5_counterexample :
    countActive dbOver 0 = 1 ∧
      startGameCommit dbOver 0 "blackjack" 5000 250000 =
        .error .dbError ∧
      ApiError.dbError ≠ ApiError.sessionExists :=
  ⟨by decide, rfl, by decide⟩

/-- Claim C6: once a session has been settled, every later CompleteSession
on the same id — after any further sequence of committed operations —
fails with the `SESSION_ERROR` reply and changes nothing. -/
theorem claimC6_single_fire (db : DB) (sid : Nat) (r : String) (p : Int)
    (now : Nat) (resp : CompleteSessionResponse) (db' : DB)
    (hfresh : SessionIdsFresh db)
    (h : completeSession db sid r p now = .ok (resp, db'))
    (ops : List Op) (r₂ : String) (p₂ : Int) (now₂ : Nat) :
    completeSession (runOps db' ops) sid r₂ p₂ now₂ =
        .error .sessionError ∧
      applyOp (runOps db' ops) (.complete sid r₂ p₂ now₂) =
        runOps db' ops :=
  completeSession_notActiveId
    (runOps_notActiveId ops (completeSession_ok_notActiveId hfresh h))

/-- Witness for the C6 theorem at concrete inputs. -/
theorem claimC6_witness :
    SessionIdsFresh dbOver ∧
      completeSession dbOver 0 "win" 50 5 =
        .ok ({ success := true, newBankroll := 150,
               accountDeleted := false }, dbOverWin) ∧
      (completeSession (runOps dbOverWin []) 0 "win" 500 10 =
          .error .sessionError ∧
        applyOp (runOps dbOverWin []) (.complete 0 "win" 500 10) =
          runOps dbOverWin []) :=
  ⟨by unfold SessionIdsFresh; decide, rfl,
    claimC6_single_fire dbOver 0 "win" 50 5
      { success := true, newBankroll := 150, accountDeleted := false }
      dbOverWin (by unfold SessionIdsFresh; decide) rfl [] "win" 500 10⟩

/-- Claim C2 (amended): under the stated preconditions StartGame succeeds
and atomically debits the bet, appends exactly one active session row with
that bet, appends exactly one `bet` ledger row with
`amount = -bet, before = b, after = b - bet`, and leaves every other
account untouched; the reply carries the new session id, the game type
and the bet — not the updated balance. -/
theorem claimC2_startGame_effects
    (db : DB) (uid : Nat) (g : String) (bet : Int) (game : Game) (b : Int)
    (hg : GetGameByID g = some game) (he : game.enabled = true)
    (hmin : game.minBet ≤ bet) (hmax : bet ≤ game.maxBet)
    (hb : lookupBankroll db uid = some b) (hfunds : bet ≤ b)
    (hnoact : countActive db uid = 0) :
    ∃ db', startGame db uid g bet =
        .ok ({ sessionId := db.nextSessionId, gameType := g,
               betCents := bet }, db') ∧
      lookupBankroll db' uid = some (b - bet) ∧
      db'.sessions = db.sessions ++
        [{ id := db.nextSessionId, userId := uid, gameType := g,
           status := "active", betCents := bet, result := none,
           payoutCents := 0, endedAt := none }] ∧
      db'.ledger = db.ledger ++
        [{ id := db.nextLedgerId, userId := uid,
           gameSessionId := some db.nextSessionId,
           transactionType := "bet", amountCents := -bet,
           balanceBeforeCents := b, balanceAfterCents := b - bet,
           description := "Bet placed on " ++ g }] ∧
      ∀ a ∈ db.accounts, a.userId ≠ uid → a ∈ db'.accounts := by
  have hbetpos : 0 < bet := lt_of_lt_of_le (GetGameByID_minBet_pos hg) hmin
  have c0 : (db.accounts.any (fun a => a.userId == uid) &&
      decide (b - bet < 0)) = false := by
    have hd : decide (b - bet < 0) = false := decide_eq_false (by omega)
    rw [hd, Bool.and_false]
  have hub : ∃ db1, updateBankroll db uid (b - bet) = some db1 := by
    unfold updateBankroll
    simp only [c0, Bool.false_eq_true, if_false]
    exact ⟨_, rfl⟩
  obtain ⟨db1, hub⟩ := hub
  obtain ⟨hsess1, hled1, hnextS1, hnextL1, hacc1, -⟩ := updateBankroll_eq hub
  have hnone : db1.sessions.any
      (fun s => s.userId == uid && s.status == "active") = false := by
    rw [hsess1]
    exact countActive_eq_zero_iff.mp hnoact
  have c1 : decide (bet ≤ 0) = false := decide_eq_false (by omega)
  have hins : ∃ db2, insertSession db1 uid g bet =
      some (db1.nextSessionId, db2) := by
    unfold insertSession
    simp only [c1, hnone, Bool.false_eq_true, if_false]
    exact ⟨_, rfl⟩
  obtain ⟨db2, hins⟩ := hins
  obtain ⟨-, -, -, hacc2, hled2, hnextL2, hnextS2, hsess2⟩ :=
    insertSession_eq hins
  have c2 : (!validTransactionType "bet") = false := rfl
  have c3 : decide (b - bet ≠ b + -bet) = false :=
    decide_eq_false (by omega)
  have hledg : ∃ db3, insertLedger db2 uid (some db1.nextSessionId) "bet"
      (-bet) b (b - bet) ("Bet placed on " ++ g) = some db3 := by
    unfold insertLedger
    simp only [c2, c3, Bool.false_eq_true, if_false]
    exact ⟨_, rfl⟩
  obtain ⟨db3, hledg⟩ := hledg
  obtain ⟨-, hacc3, hsess3, hnextS3, hnextL3, hled3⟩ := insertLedger_eq hledg
  rw [hnextS1] at hledg hled3
  refine ⟨db3, ?_, ?_, ?_, ?_, ?_⟩
  · unfold startGame startGameCommit
    have e0 : (!game.enabled) = false := by rw [he]; rfl
    have e1 : decide (bet < game.minBet) = false :=
      decide_eq_false (not_lt.mpr hmin)
    have e2 : decide (bet > game.maxBet) = false :=
      decide_eq_false (not_lt.mpr hmax)
    have e3 : decide (b < bet) = false := decide_eq_false (not_lt.mpr hfunds)
    have e4 : decide ((db.sessions.filter (fun s =>
        s.userId == uid && s.status == "active")).length > 0) = false := by
      have h0 : (db.sessions.filter (fun s =>
          s.userId == uid && s.status == "active")).length = 0 := hnoact
      rw [h0]
      rfl
    simp only [hg, e0, e1, e2, hb, e3, e4, Bool.false_eq_true, if_false,
      hub, hins, hledg, hnextS1]
  · have hlu := lookupBankroll_after_update hub hb
    unfold lookupBankroll at hlu ⊢
    rw [hacc3, hacc2]
    exact hlu
  · rw [hsess3, hsess2, hsess1, hnextS1]
  · rw [hled3, hled2, hled1, hnextL2, hnextL1]
  · intro a ha hne
    rw [hacc3, hacc2, hacc1]
    have hmem := List.mem_map_of_mem (fun a : Account =>
      if a.userId == uid then { a with bankrollCents := b - bet } else a) ha
    simpa [hne] using hmem

/-- Witness for the C2 theorem at concrete inputs (Scenario A). -/
theorem claimC2_witness :
    countActive dbStart 0 = 0 ∧
      ∃ db', startGame dbStart 0 "blackjack" 5000 =
          .ok ({ sessionId := 0, gameType := "blackjack",
                 betCents := 5000 }, db') ∧
        lookupBankroll db' 0 = some 245000 ∧
        db'.sessions = dbStart.sessions ++
          [{ id := 0, userId := 0, gameType := "blackjack",
             status := "active", betCents := 5000, result := none,
             payoutCents := 0, endedAt := none }] ∧
        db'.ledger = dbStart.ledger ++
          [{ id := 0, userId := 0, gameSessionId := some 0,
             transactionType := "bet", amountCents := -5000,
             balanceBeforeCents := 250000, balanceAfterCents := 245000,
             description := "Bet placed on blackjack" }] ∧
        ∀ a ∈ dbStart.accounts, a.userId ≠ 0 → a ∈ db'.accounts :=
  ⟨by decide,
    claimC2_startGame_effects dbStart 0 "blackjack" 5000
      { id := "blackjack", minBet := 100, maxBet := 10000, enabled := true }
      250000 (by decide) (by decide) (by decide) (by decide) (by decide)
      (by decide) (by decide)⟩

/-- Counterexample for claim C2 as stated: the StartGame success reply of
sessions.go (`StartGameResponse`) has exactly the fields session id,
websocket URL, game type and bet; at Scenario A the updated balance is
245000 but neither numeric field of the reply carries it, so StartGame
does not return the updated balance. -/
theorem claimC2_counterexample :
    startGame dbStart 0 "blackjack" 5000 =
        .ok ({ sessionId := 0, gameType := "blackjack",
               betCents := 5000 }, dbStartAfter) ∧
      lookupBankroll dbStartAfter 0 = some 245000 ∧
      (5000 : Int) ≠ 245000 ∧ (0 : Nat) ≠ 245000 :=
  ⟨rfl, by decide, by decide, by decide⟩

/-- Claim C7 (amended): a settlement whose resulting balance is at or
below zero deletes the user inside the settlement transaction, cascading
away the account row and every session and ledger row it owns, and
reports `account_deleted = true`; a subsequent GetActiveSession answers
the ordinary `has_active_session = false` success body — the same value a
live account with no open session receives — not a distinct
not-found. -/
theorem claimC7_zero_balance_teardown
    (db : DB) (sid : Nat) (r : String) (p : Int) (now : Nat)
    (sess : GameSession) (resp : CompleteSessionResponse) (db' : DB)
    (hs : db.sessions.find?
      (fun s => s.id == sid && s.status == "active") = some sess)
    (h : completeSession db sid r p now = .ok (resp, db'))
    (hz : resp.newBankroll ≤ 0) :
    resp.accountDeleted = true ∧
      (∀ a ∈ db'.accounts, a.userId ≠ sess.userId) ∧
      (∀ s ∈ db'.sessions, s.userId ≠ sess.userId) ∧
      (∀ t ∈ db'.ledger, t.userId ≠ sess.userId) ∧
      getActiveSession db' sess.userId =
        { hasActiveSession := false, session := none } := by
  obtain ⟨sess₀, bank, db1, db2, db3, hs₀, -, -, -, -, hresp, hfin⟩ :=
    completeSession_ok h
  rw [hs] at hs₀
  cases hs₀
  have hz' : wrap64 (bank + p) ≤ 0 := by
    rw [hresp] at hz
    exact hz
  rw [if_pos hz'] at hfin
  refine ⟨?_, ?_, ?_, ?_, ?_⟩
  · rw [hresp]
    simp [decide_eq_true hz']
  · intro a ha
    rw [hfin] at ha
    simp only [deleteUserCascade, List.mem_filter, Bool.not_eq_true',
      beq_eq_false_iff_ne, ne_eq] at ha
    exact ha.2
  · intro s hsx
    rw [hfin] at hsx
    simp only [deleteUserCascade, List.mem_filter, Bool.not_eq_true',
      beq_eq_false_iff_ne, ne_eq] at hsx
    exact hsx.2
  · intro t ht
    rw [hfin] at ht
    simp only [deleteUserCascade, List.mem_filter, Bool.not_eq_true',
      beq_eq_false_iff_ne, ne_eq] at ht
    exact ht.2
  · unfold getActiveSession
    have hfind : db'.sessions.find? (fun s =>
        s.userId == sess.userId && s.status == "active") = none := by
      rw [List.find?_eq_none]
      intro s hsx
      rw [hfin] at hsx
      simp only [deleteUserCascade, List.mem_filter, Bool.not_eq_true',
        beq_eq_false_iff_ne, ne_eq] at hsx
      simp only [Bool.and_eq_true, beq_iff_eq, not_and]
      intro hc
      exact absurd hc hsx.2
    simp only [hfind]

/-- Witness for the C7 theorem at concrete inputs (Scenario C). -/
theorem claimC7_witness :
    completeSession dbZero 3 "lose" 0 9 =
        .ok ({ success := true, newBankroll := 0,
               accountDeleted := true }, dbEmpty) ∧
      (({ success := true, newBankroll := 0,
          accountDeleted := true } : CompleteSessionResponse).accountDeleted
          = true ∧
        (∀ a ∈ dbEmpty.accounts, a.userId ≠ 0) ∧
        (∀ s ∈ dbEmpty.sessions, s.userId ≠ 0) ∧
        (∀ t ∈ dbEmpty.ledger, t.userId ≠ 0) ∧
        getActiveSession dbEmpty 0 =
          { hasActiveSession := false, session := none }) :=
  ⟨rfl,
    claimC7_zero_balance_teardown dbZero 3 "lose" 0 9
      { id := 3, userId := 0, gameType := "blackjack", status := "active",
        betCents := 5000, result := none, payoutCents := 0, endedAt := none }
      { success := true, newBankroll := 0, accountDeleted := true }
      dbEmpty (by decide) rfl (by decide)⟩

/-- Counterexample for claim C7 as stated: after the teardown of Scenario
C, GetActiveSession for the deleted account does not report not-found; it
answers the ordinary `has_active_session = false` success body, the exact
value a live account with no open session receives (sessions.go treats a
missing row as "no active session", HTTP 200, and never checks account
existence). -/
theorem claimC7_counterexample :
    completeSession dbZero 3 "lose" 0 9 =
        .ok ({ success := true, newBankroll := 0,
               accountDeleted := true }, dbEmpty) ∧
      getActiveSession dbEmpty 0 =
        { hasActiveSession := false, session := none } ∧
      getActiveSession dbLive 1 =
        { hasActiveSession := false, session := none } ∧
      getActiveSession dbEmpty 0 = getActiveSession dbLive 1 :=
  ⟨rfl, rfl, rfl, rfl⟩

/-- Claim C8 (amended): GetSession is read-only and answers by case:
unknown id — `SESSION_NOT_FOUND`; known but settled (completed or
abandoned) id — the `SESSION_INACTIVE` error, not a snapshot; active id —
the session snapshot carrying its status. -/
theorem claimC8_getSession_cases (db : DB) (sid : Nat) :
    (db.sessions.find? (fun s => s.id == sid) = none →
      getSession db sid = .error .sessionNotFound) ∧
    (∀ s, db.sessions.find? (fun s => s.id == sid) = some s →
      s.status ≠ "active" →
      getSession db sid = .error .sessionInactive) ∧
    (∀ s, db.sessions.find? (fun s => s.id == sid) = some s →
      s.status = "active" →
      getSession db sid =
        .ok { sessionId := sid, userId := s.userId,
              gameType := s.gameType, betCents := s.betCents,
              status := s.status }) := by
  refine ⟨?_, ?_, ?_⟩
  · intro hf
    unfold getSession
    simp only [hf]
  · intro s hf hst
    unfold getSession
    simp only [hf]
    have hc : (!(s.status == "active")) = true := by
      simp [hst]
    rw [if_pos hc]
  · intro s hf hst
    unfold getSession
    simp only [hf]
    have hc : ¬((!(s.status == "active")) = true) := by
      simp [hst]
    rw [if_neg hc]

/-- Witness for the C8 theorem at concrete inputs. -/
theorem claimC8_witness :
    getSession dbStart 7 = .error .sessionNotFound ∧
      getSession dbDone 0 = .error .sessionInactive ∧
      getSession dbOver 0 =
        .ok { sessionId := 0, userId := 0, gameType := "blackjack",
              betCents := 100, status := "active" } :=
  ⟨(claimC8_getSession_cases dbStart 7).1 (by decide),
    (claimC8_getSession_cases dbDone 0).2.1
      { id := 0, userId := 0, gameType := "blackjack",
        status := "completed", betCents := 100, result := some "lose",
        payoutCents := 0, endedAt := some 2 } (by decide) (by decide),
    (claimC8_getSession_cases dbOver 0).2.2
      { id := 0, userId := 0, gameType := "blackjack", status := "active",
        betCents := 100, result := none, payoutCents := 0,
        endedAt := none } (by decide) (by decide)⟩

/-- Counterexample for claim C8 as stated: a known, already-completed
session is not answered with a snapshot exposing its status; internal.go
rejects every non-active session with the `SESSION_INACTIVE` error
(HTTP 400). -/
theorem claimC8_counterexample :
    dbDone.sessions.find? (fun s => s.id == 0) =
        some { id := 0, userId := 0, gameType := "blackjack",
               status := "completed", betCents := 100,
               result := some "lose", payoutCents := 0,
               endedAt := some 2 } ∧
      getSession dbDone 0 = .error .sessionInactive :=
  ⟨rfl, rfl⟩

/-- Claim C9: AbandonSession fails with the no-active-session error when
the account holds none, changing nothing; otherwise it succeeds and its
single UPDATE turns the user's active session into
`status=abandoned, result=lose, payout_cents=0, ended_at=now`, leaving the
accounts, the ledger, the id counters, every other session and the
remaining fields of the updated row untouched, and writing no ledger
entry. -/
theorem claimC9_abandon (db : DB) (uid now : Nat) :
    (countActive db uid = 0 →
      abandonSession db uid now = .error .noSession ∧
        applyOp db (.abandon uid now) = db) ∧
    (countActive db uid ≠ 0 → ∃ db',
      abandonSession db uid now = .ok db' ∧
        db'.accounts = db.accounts ∧ db'.ledger = db.ledger ∧
        db'.nextSessionId = db.nextSessionId ∧
        db'.nextLedgerId = db.nextLedgerId ∧
        db'.sessions = db.sessions.map (fun s =>
          if s.userId == uid && s.status == "active" then
            { s with status := "abandoned", result := some "lose",
                     payoutCents := 0, endedAt := some now }
          else s)) := by
  constructor
  · intro h0
    have herr : abandonSession db uid now = .error .noSession := by
      unfold abandonSession
      rw [if_pos]
      exact decide_eq_true h0
    exact ⟨herr, by simp only [applyOp, herr]⟩
  · intro hne
    have hok : abandonSession db uid now = .ok { db with
        sessions := db.sessions.map (fun s =>
          if s.userId == uid && s.status == "active" then
            { s with status := "abandoned", result := some "lose",
                     payoutCents := 0, endedAt := some now }
          else s) } := by
      unfold abandonSession
      rw [if_neg]
      intro hc
      rw [decide_eq_true_eq] at hc
      exact hne hc
    exact ⟨_, hok, rfl, rfl, rfl, rfl, rfl⟩

/-- Witness for the C9 theorem at concrete inputs. -/
theorem claimC9_witness :
    (abandonSession dbDone 0 4 = .error .noSession ∧
      applyOp dbDone (.abandon 0 4) = dbDone) ∧
    (∃ db', abandonSession dbOver 0 4 = .ok db' ∧
      db'.accounts = dbOver.accounts ∧ db'.ledger = dbOver.ledger ∧
      db'.nextSessionId = dbOver.nextSessionId ∧
      db'.nextLedgerId = dbOver.nextLedgerId ∧
      db'.sessions = dbOver.sessions.map (fun s =>
        if s.userId == 0 && s.status == "active" then
          { s with status := "abandoned", result := some "lose",
                   payoutCents := 0, endedAt := some 4 }
        else s)) :=
  ⟨(claimC9_abandon dbDone 0 4).1 (by decide),
    (claimC9_abandon dbOver 0 4).2 (by decide)⟩

/-- Claim C10 (amended): CompleteSession applies the reported payout with
no application-level sign or range validation; the bankroll it computes
is the wrapped int64 sum of prior and payout.  Whenever the exact sum
`prior + payout` is representable and non-negative (below 2^63 =
9223372036854775808) — including negative payouts up to the balance — it
succeeds, the returned bankroll is `prior + payout` and the `win` ledger
row records `amount_cents = payout` (the row survives when the balance
stays positive; at exactly zero the teardown cascades it away).  A payout
whose exact sum is negative, or overflows int64 so the wrapped sum cannot
be stored consistently, is stopped only by the database checks
(`bankroll_cents >= 0`, `balance_math_check`) and surfaces as the storage
error `DB_ERROR`, never as an insufficient-funds error. -/
theorem claimC10_payout_unvalidated
    (db : DB) (sid : Nat) (r : String) (p : Int) (now : Nat)
    (sess : GameSession) (b : Int)
    (hs : db.sessions.find?
      (fun s => s.id == sid && s.status == "active") = some sess)
    (hb : lookupBankroll db sess.userId = some b)
    (hr : validResult r = true) :
    (0 ≤ b + p → b + p < 9223372036854775808 →
      ∃ db', completeSession db sid r p now =
        .ok ({ success := true, newBankroll := b + p,
               accountDeleted := decide (b + p ≤ 0) }, db') ∧
      (0 < b + p → db'.ledger = db.ledger ++
        [{ id := db.nextLedgerId, userId := sess.userId,
           gameSessionId := some sid, transactionType := "win",
           amountCents := p, balanceBeforeCents := b,
           balanceAfterCents := b + p,
           description := "Game completed: " ++ r }])) ∧
    (b + p < 0 ∨ 9223372036854775808 ≤ b + p →
      completeSession db sid r p now = .error .dbError) := by
  constructor
  · intro hnn hltmax
    have hw : wrap64 (b + p) = b + p :=
      wrap64_eq_self (by omega) (by omega)
    have c0 : (db.sessions.any (fun s => s.id == sid) &&
        !validResult r) = false := by
      rw [hr]
      simp
    have hupd1 : ∃ db1, updateSessionCompleted db sid r p now = some db1 := by
      unfold updateSessionCompleted
      simp only [c0, Bool.false_eq_true, if_false]
      exact ⟨_, rfl⟩
    obtain ⟨db1, hupd1⟩ := hupd1
    obtain ⟨hacc1, hled1, hnextS1, hnextL1, hsess1⟩ :=
      updateSessionCompleted_eq hupd1
    have hb1 : lookupBankroll db1 sess.userId = some b := by
      unfold lookupBankroll at hb ⊢
      rw [hacc1]
      exact hb
    have c1 : (db1.accounts.any (fun a => a.userId == sess.userId) &&
        decide (b + p < 0)) = false := by
      have hd : decide (b + p < 0) = false := decide_eq_false (by omega)
      rw [hd, Bool.and_false]
    have hupd2 : ∃ db2, updateBankroll db1 sess.userId (b + p) =
        some db2 := by
      unfold updateBankroll
      simp only [c1, Bool.false_eq_true, if_false]
      exact ⟨_, rfl⟩
    obtain ⟨db2, hupd2⟩ := hupd2
    obtain ⟨hsess2, hled2, hnextS2, hnextL2, hacc2, -⟩ :=
      updateBankroll_eq hupd2
    have c2 : (!validTransactionType "win") = false := rfl
    have c3 : decide (b + p ≠ b + p) = false := decide_eq_false (by omega)
    have hledg : ∃ db3, insertLedger db2 sess.userId (some sid) "win" p b
        (b + p) ("Game completed: " ++ r) = some db3 := by
      unfold insertLedger
      simp only [c2, c3, Bool.false_eq_true, if_false]
      exact ⟨_, rfl⟩
    obtain ⟨db3, hledg⟩ := hledg
    obtain ⟨-, hacc3, hsess3, hnextS3, hnextL3, hled3⟩ :=
      insertLedger_eq hledg
    by_cases hle : b + p ≤ 0
    · refine ⟨deleteUserCascade db3 sess.userId, ?_, ?_⟩
      · unfold completeSession
        simp only [hs, hw, hupd1, hb1, hupd2, hledg]
        rw [if_pos (decide_eq_true hle), decide_eq_true hle]
      · intro hpos
        exfalso
        omega
    · refine ⟨db3, ?_, ?_⟩
      · unfold completeSession
        simp only [hs, hw, hupd1, hb1, hupd2, hledg]
        rw [if_neg, decide_eq_false hle]
        rw [decide_eq_false hle]
        simp
      · intro _
        rw [hled3, hled2, hled1, hnextL2, hnextL1]
  · intro hbad
    exact completeSession_out_of_range hs hb hbad

/-- Witness for the C10 theorem at concrete inputs, including a negative
payout that stays within the balance. -/
theorem claimC10_witness :
    lookupBankroll dbOver 0 = some 100 ∧ validResult "lose" = true ∧
      (∃ db', completeSession dbOver 0 "lose" (-40) 5 =
          .ok ({ success := true, newBankroll := 60,
                 accountDeleted := false }, db') ∧
        ((0 : Int) < 60 → db'.ledger = dbOver.ledger ++
          [{ id := 0, userId := 0, gameSessionId := some 0,
             transactionType := "win", amountCents := -40,
             balanceBeforeCents := 100, balanceAfterCents := 60,
             description := "Game completed: lose" }])) :=
  ⟨by decide, by decide,
    (claimC10_payout_unvalidated dbOver 0 "lose" (-40) 5
      { id := 0, userId := 0, gameType := "blackjack", status := "active",
        betCents := 100, result := none, payoutCents := 0, endedAt := none }
      100 (by decide) (by decide) (by decide)).1 (by decide) (by decide)⟩

/-- Counterexample for claim C10 as stated: the claim promises, for every
int64 payout, a returned bankroll of `prior + payout`.  With a prior
bankroll of 100 cents and payout -200 the exact sum is -100: the accounts
UPDATE violates `bankroll_cents >= 0`, the transaction rolls back and the
caller gets `DB_ERROR`.  With the valid int64 payout 9223372036854775807
(int64 max) the handler wraps `100 + payout` to the negative value
99 - 2^63 and likewise answers `DB_ERROR` — no bankroll of
`prior + payout` is ever returned at either input. -/
theorem claimC10_counterexample :
    lookupBankroll dbOver 0 = some 100 ∧
      completeSession dbOver 0 "lose" (-200) 5 = .error .dbError ∧
      completeSession dbOver 0 "lose" 9223372036854775807 5 =
        .error .dbError :=
  ⟨by decide, rfl, rfl⟩

end Casino
